import Mathlib

/-!
Shallow embedding of `src/fetch_jobs.py` (malawi-job-wakeup-fetcher):
an incremental job-posting novelty-detection pipeline
(fetch → parse → keyword-filter → diff against a persisted seen-set → digest).

External collaborators (the `requests` HTTP library, BeautifulSoup text
extraction, the JSON codec, the filesystem and SMTP) enter the model as
data: an HTTP fetch becomes an outcome value, a parsed page becomes the
line sequence / anchor list BeautifulSoup would yield, and the persisted
seen-file becomes a value describing what `json.loads` would do with its
content.  Everything downstream of those boundaries is translated
directly from the Python source.

Python string primitives (`str.lower`, `str.startswith`, `str.strip`,
`str.split`, `in`, `" | ".join`) are modelled by structural functions on
the character list of a `String`, so that every definition evaluates by
kernel reduction.
-/

namespace FetchJobs

/-- Model of Python `str.lower()` at the character level (ASCII case
mapping, which is all the script's data exercises). -/
def lowerChars (l : List Char) : List Char := l.map Char.toLower

/-- Model of Python `str.lower()` on strings. -/
def lower (s : String) : String := String.mk (lowerChars s.toList)

/-- Model of Python `s.startswith(pre)`. -/
def strStartsWith (s pre : String) : Bool := pre.toList.isPrefixOf s.toList

/-- Contiguous-occurrence test on character lists: `hasSub pat hay` is true
iff `pat` occurs as a contiguous run inside `hay`.  This models Python's
substring operator `pat in hay` used in `keyword_match`. -/
def hasSub (pat : List Char) : List Char → Bool
  | [] => pat.isEmpty
  | c :: t => pat.isPrefixOf (c :: t) || hasSub pat t

/-- Model of Python `str.strip()`: drop whitespace from both ends. -/
def stripChars (l : List Char) : List Char :=
  ((l.dropWhile Char.isWhitespace).reverse.dropWhile Char.isWhitespace).reverse

/-- Model of Python `str.strip()` on strings. -/
def strip (s : String) : String := String.mk (stripChars s.toList)

/-- Model of Python `text.split("\n")`: split a character list at every
newline, keeping empty segments (Python keeps them too). -/
def splitNL : List Char → List (List Char)
  | [] => [[]]
  | c :: t =>
    if c = '\n' then [] :: splitNL t
    else
      match splitNL t with
      | [] => [[c]]
      | h :: r => (c :: h) :: r

/-- Model of Python `sep.join(parts)`. -/
def joinSep (sep : String) : List String → String
  | [] => ""
  | [s] => s
  | s :: r => s ++ sep ++ joinSep sep r

/-- The module-level keyword configuration, `KEYWORDS` at
`fetch_jobs.py:23`. -/
def KEYWORDS : List String := ["Manager", "Officer", "Assistant", "Project"]

/-- `keyword_match` (`fetch_jobs.py:46-48`): lower-case the text once and
test whether any keyword, lower-cased, occurs inside it.  The keyword
list is the module-level global `KEYWORDS` in the script; the embedding
passes it explicitly, as a configuration parameter. -/
def keyword_match (keywords : List String) (text : String) : Bool :=
  let t := lowerChars text.toList
  keywords.any (fun k => hasSub (lowerChars k.toList) t)

/-- A candidate job posting, mirroring the dicts built by the two parsers
in `fetch_jobs.py` (`id`, `title`, `link`, `source`, `meta`). -/
structure Job where
  id : String
  title : String
  link : String
  source : String
  meta : String
deriving DecidableEq

/-- One `<a href=...>` element as BeautifulSoup hands it to
`parse_ntchito`: the raw `href` attribute and the anchor's visible text
(`a.get_text(" ", strip=True)`). -/
structure Anchor where
  href : String
  text : String
deriving DecidableEq

/-- The navigation denylist of `parse_ntchito` (`fetch_jobs.py:137`). -/
def navLabels : List String := ["home", "jobs", "contact", "register", "login"]

/-- The per-anchor body of the `parse_ntchito` loop
(`fetch_jobs.py:127-148`): strip the href, apply the length, domain,
navigation and keyword guards, and build the job dict. -/
def ntchito_keep (keywords : List String) (a : Anchor) : Option Job :=
  let href := strip a.href
  let title := a.text
  if title == "" || title.length < 6 then none
  else if !(strStartsWith href "https://ntchito.com/") then none
  else if navLabels.contains (lower title) then none
  else if keyword_match keywords title then
    some ⟨"ntchito::" ++ href, title, href, "Ntchito", ""⟩
  else none

/-- One step of the id-keyed dict comprehension
`{j["id"]: j for j in jobs}` (`fetch_jobs.py:151`): a repeated id
overwrites the stored value in place, a fresh id is appended (Python
dicts keep first-insertion key order and the last value per key). -/
def upsert (acc : List Job) (j : Job) : List Job :=
  if acc.any (fun x => x.id == j.id) then
    acc.map (fun x => if x.id == j.id then j else x)
  else acc ++ [j]

/-- The within-page deduplication of `parse_ntchito`
(`fetch_jobs.py:150-152`). -/
def dedupById (jobs : List Job) : List Job := jobs.foldl upsert []

/-- `parse_ntchito` (`fetch_jobs.py:124-152`), starting from the anchor
list BeautifulSoup's `soup.select("a[href]")` would produce. -/
def parse_ntchito (keywords : List String) (anchors : List Anchor) : List Job :=
  dedupById (anchors.filterMap (ntchito_keep keywords))

/-- The line preprocessing of `parse_onlinejobmw` (`fetch_jobs.py:163-164`):
split the page text on newlines, strip each line, keep the non-empty
ones. -/
def siteB_lines (text : String) : List String :=
  ((splitNL text.toList).map (fun l => String.mk (stripChars l))).filter
    (fun s => !(s == ""))

/-- The body of the `parse_onlinejobmw` loop at one index
(`fetch_jobs.py:167-189`): when line `i` lower-starts with `"posted "`,
look back 4/3/2 lines for title/company/location (empty when the index
would be negative), apply the title-length and keyword guards, and build
the job dict. -/
def siteB_at (keywords : List String) (lines : List String) (i : Nat) : Option Job :=
  let ln := lines.getD i ""
  if strStartsWith (lower ln) "posted " then
    let posted := ln
    let title := if 4 ≤ i then lines.getD (i - 4) "" else ""
    let company := if 3 ≤ i then lines.getD (i - 3) "" else ""
    let location := if 2 ≤ i then lines.getD (i - 2) "" else ""
    if title == "" || title.length < 6 then none
    else if !(keyword_match keywords title) then none
    else
      some ⟨"onlinejobmw::" ++ title ++ "::" ++ company ++ "::" ++ posted,
            title,
            "https://onlinejobmw.com/job-category/job_vacancies/",
            "OnlineJobMW",
            joinSep " | " ([company, location, posted].filter (fun p => !(p == "")))⟩
  else none

/-- `parse_onlinejobmw` from the flat line sequence onward
(`fetch_jobs.py:166-191`): enumerate the lines and collect the jobs the
loop body yields, in order, with no within-page deduplication. -/
def parse_onlinejobmw_lines (keywords : List String) (lines : List String) : List Job :=
  (List.range lines.length).filterMap (siteB_at keywords lines)

/-- `parse_onlinejobmw` (`fetch_jobs.py:155-191`), starting from the page
text BeautifulSoup's `soup.get_text("\n", strip=True)` would produce. -/
def parse_onlinejobmw (keywords : List String) (text : String) : List Job :=
  parse_onlinejobmw_lines keywords (siteB_lines text)

/-- The observable states of the persisted seen-file, as `load_seen`
(`fetch_jobs.py:51-57`) distinguishes them: the file may be absent; its
content may make `json.loads` (or the `set(...)` constructor around it)
raise, which the bare `except` turns into the empty set; or it may parse
as a JSON array of strings. -/
inductive SeenFile where
  | absent
  | unreadable
  | strArray (l : List String)

/-- `load_seen` (`fetch_jobs.py:51-57`): absent file or raising content
degrades to the empty set; an array of strings loads as the set of its
elements. -/
def load_seen : SeenFile → Finset String
  | .absent => ∅
  | .unreadable => ∅
  | .strArray l => l.toFinset

/-- `save_seen` (`fetch_jobs.py:60-62`): the persisted representation is
`json.dumps(sorted(seen))`, i.e. the sorted list of the set's
elements. -/
def save_seen (seen : Finset String) : List String := seen.sort (· ≤ ·)

/-- A seen-set built by inserting the identifiers of a list one at a time
(the order-insensitivity side of the persistence round-trip is stated
against this constructor). -/
def ofList (l : List String) : Finset String :=
  l.foldl (fun t x => insert x t) ∅

/-- The predicate "the file holds a valid **sorted** JSON array of
strings", the condition named by the spec's load claim. -/
def isSortedStringArrayFile : SeenFile → Prop
  | .strArray l => List.Sorted (· ≤ ·) l
  | _ => False

/-- Outcome of `requests.get` as `fetch_html` observes it: a
network-level failure (connection error, timeout, redirect exhaustion —
`requests.get` itself raises), or a final HTTP response with a status
code and a body. -/
inductive HttpOutcome where
  | netError
  | response (status : Nat) (body : String)
deriving DecidableEq

/-- `fetch_html` (`fetch_jobs.py:39-43`): a single `requests.get`; a
network-level failure propagates, `raise_for_status()` raises exactly for
client-error and server-error statuses (`400 ≤ status < 600`, per the
`requests` library), and otherwise the body text is returned.  There is
no retry: the function performs one attempt. -/
def fetch_html : HttpOutcome → Except String String
  | .netError => .error "network failure"
  | .response s b => if 400 ≤ s ∧ s < 600 then .error "HTTP error status" else .ok b

/-- Status classification used by the spec's fetcher claim. -/
def is2xx (s : Nat) : Prop := 200 ≤ s ∧ s < 300

/-- The bullet line `write_digest` emits for one job
(`fetch_jobs.py:203`). -/
def bulletLine (j : Job) : String := "- **" ++ j.title ++ "** (" ++ j.source ++ ")"

/-- The lines `write_digest` appends for one job
(`fetch_jobs.py:203-206`): bullet, optional meta line, link line. -/
def jobBlock (j : Job) : List String :=
  [bulletLine j] ++ (if j.meta == "" then [] else ["  - " ++ j.meta]) ++
    ["  - " ++ j.link]

/-- The digest document of `write_digest` (`fetch_jobs.py:194-208`) as its
line list: a dated heading, a blank line, then either the explicit
no-new-jobs line or one block per new job. -/
def digestLines (today : String) (njs : List Job) : List String :=
  let header := ["# Malawi Job Digest — " ++ today, ""]
  if njs.isEmpty then header ++ ["No new matching jobs today."]
  else header ++ njs.foldl (fun acc j => acc ++ jobBlock j) []

/-- Per-run fetch outcomes for the two configured sources, in `SOURCES`
order (`fetch_jobs.py:11-20`): `none` means the fetch for that source
raised and `main` logged the error and moved on; `some` carries the
markup-derived input of that source's parser. -/
structure RunInput where
  onlinejobmw : Option String
  ntchito : Option (List Anchor)

/-- The collection loop of `main` (`fetch_jobs.py:215-225`): each source
that fetched successfully contributes its parser's candidates, in source
order; a failed source contributes nothing. -/
def collect (keywords : List String) (inp : RunInput) : List Job :=
  (match inp.onlinejobmw with
   | some text => parse_onlinejobmw keywords text
   | none => []) ++
  (match inp.ntchito with
   | some anchors => parse_ntchito keywords anchors
   | none => [])

/-- Line 228 of `fetch_jobs.py`: keep the candidates whose identifier is
not in the loaded seen-set. -/
def new_jobs (seen : Finset String) (collected : List Job) : List Job :=
  collected.filter (fun j => !(decide (j.id ∈ seen)))

/-- Lines 231-232 of `fetch_jobs.py`: add every collected candidate's
identifier to the seen-set. -/
def record (seen : Finset String) (collected : List Job) : Finset String :=
  collected.foldl (fun s j => insert j.id s) seen

/-- The Novelty Tracker's `partition` operation as the run performs it:
the new sublist (line 228), the full candidate list (which line 228 reads
and does not change), and — state-passing being the embedding of the
stateful tracker — the seen-set after the query, which the comprehension
leaves untouched. -/
def partition (seen : Finset String) (candidates : List Job) :
    (List Job × List Job) × Finset String :=
  ((new_jobs seen candidates, candidates), seen)

/-- What one `main` run produces from its inputs
(`fetch_jobs.py:211-244`): the new-jobs list, the persisted seen list
and the digest lines.  Logging and email delivery are fire-and-forget
external collaborators and carry no data back into the pipeline. -/
structure RunResult where
  new : List Job
  savedSeen : List String
  digest : List String

/-- One full pipeline run (`fetch_jobs.py:211-244`): collect candidates
from the per-source fetch outcomes, split off the unseen ones, record
every collected candidate, persist, and render the digest. -/
def runPipeline (keywords : List String) (today : String) (seen0 : Finset String)
    (inp : RunInput) : RunResult :=
  let collected := collect keywords inp
  ⟨new_jobs seen0 collected,
   save_seen (record seen0 collected),
   digestLines today (new_jobs seen0 collected)⟩

/-- Lookback input for the Site B positional-rule witness: a complete
block (title, company, location, one extra layout line, posted
marker). -/
def c4lines : List String :=
  ["Project Accountant Role", "Acme Ltd", "Lilongwe", "Full-time",
   "Posted 1 day ago"]

/-- The spec scenario's literal line sequence: the four named lines
consecutive, with one line before them. -/
def c5lines : List String :=
  ["Some preamble", "Finance Officer", "Acme Corp", "Lilongwe",
   "Posted 2 days ago"]

/-- The layout the code's lookback offsets (4, 3 and 2 back) actually expect: one line
(here a rendering artefact such as a job-type tag) sits between the
location and the posted marker. -/
def c5blockLines : List String :=
  ["Finance Officer", "Acme Corp", "Lilongwe", "Full-time",
   "Posted 2 days ago"]

/-- A Site B page whose two blocks repeat the same title, company and
posted line (locations differ), so both posted markers reconstruct the
same identifier. -/
def c10lines : List String :=
  ["Senior Project Officer", "Acme Ltd", "Lilongwe", "Full-time",
   "Posted 3 days ago",
   "Senior Project Officer", "Acme Ltd", "Blantyre", "Contract",
   "Posted 3 days ago"]

/-- The identifier both `c10lines` blocks produce. -/
def c10id : String :=
  "onlinejobmw::Senior Project Officer::Acme Ltd::Posted 3 days ago"

/-- The job parsed from the first `c10lines` block. -/
def c10job1 : Job :=
  ⟨c10id, "Senior Project Officer",
   "https://onlinejobmw.com/job-category/job_vacancies/", "OnlineJobMW",
   "Acme Ltd | Lilongwe | Posted 3 days ago"⟩

/-- The job parsed from the second `c10lines` block: same identifier,
different meta. -/
def c10job2 : Job :=
  ⟨c10id, "Senior Project Officer",
   "https://onlinejobmw.com/job-category/job_vacancies/", "OnlineJobMW",
   "Acme Ltd | Blantyre | Posted 3 days ago"⟩

/-- A single Ntchito anchor used by the failure-isolation witness. -/
def w9anchors : List Anchor :=
  [⟨"https://ntchito.com/finance-officer/", "Finance Officer Needed"⟩]

/-- The job `parse_ntchito` extracts from `w9anchors`. -/
def w9job : Job :=
  ⟨"ntchito::https://ntchito.com/finance-officer/", "Finance Officer Needed",
   "https://ntchito.com/finance-officer/", "Ntchito", ""⟩

/-- A job whose identifier the partition witness marks as already
seen. -/
def c1job : Job := ⟨"seen-id-1", "Stores Assistant", "L", "S", ""⟩

theorem isPrefixOf_iff_append :
    ∀ (p l : List Char), p.isPrefixOf l = true ↔ ∃ q, l = p ++ q := by
  intro p
  induction p with
  | nil =>
    intro l
    simp [List.isPrefixOf]
  | cons a p ih =>
    intro l
    cases l with
    | nil =>
      simp [List.isPrefixOf]
    | cons b l =>
      simp only [List.isPrefixOf, Bool.and_eq_true, beq_iff_eq, List.cons_append]
      constructor
      · rintro ⟨rfl, h⟩
        obtain ⟨q, rfl⟩ := (ih l).mp h
        exact ⟨q, rfl⟩
      · rintro ⟨q, hq⟩
        injection hq with h1 h2
        exact ⟨h1.symm, (ih l).mpr ⟨q, h2⟩⟩

theorem hasSub_iff (pat : List Char) :
    ∀ hay, hasSub pat hay = true ↔ ∃ p q, hay = p ++ pat ++ q := by
  intro hay
  induction hay with
  | nil =>
    constructor
    · intro h
      simp only [hasSub, List.isEmpty_iff] at h
      exact ⟨[], [], by simp [h]⟩
    · rintro ⟨p, q, hpq⟩
      rcases List.append_eq_nil.mp hpq.symm with ⟨hp, hq⟩
      rcases List.append_eq_nil.mp hp with ⟨hp1, hpat⟩
      simp [hasSub, hpat]
  | cons c t ih =>
    simp only [hasSub, Bool.or_eq_true]
    constructor
    · rintro (h | h)
      · obtain ⟨q, hq⟩ := (isPrefixOf_iff_append pat (c :: t)).mp h
        exact ⟨[], q, by simpa using hq⟩
      · obtain ⟨p, q, rfl⟩ := ih.mp h
        exact ⟨c :: p, q, by simp⟩
    · rintro ⟨p, q, hpq⟩
      cases p with
      | nil =>
        left
        exact (isPrefixOf_iff_append pat (c :: t)).mpr ⟨q, by simpa using hpq⟩
      | cons c' p =>
        right
        have hct : c :: t = c' :: (p ++ pat ++ q) := by simpa using hpq
        injection hct with h1 h2
        exact ih.mpr ⟨p, q, h2⟩

/-- C6: the keyword filter is case-insensitive substring containment —
`keyword_match keywords text` is true iff some keyword, lower-cased,
occurs contiguously inside the lower-cased text; the two concrete
examples from the spec hold; and the keyword list is an explicit
parameter of the filter (the script reads it from the module-level
configuration constant `KEYWORDS` rather than fixing it inside
`keyword_match`). -/
theorem keyword_match_spec :
    (∀ (keywords : List String) (text : String),
      keyword_match keywords text = true ↔
        ∃ k, k ∈ keywords ∧
          ∃ p q, text.toList.map Char.toLower =
            p ++ (k.toList.map Char.toLower) ++ q) ∧
    keyword_match ["network"] "Senior Network Engineer" = true ∧
    keyword_match ["network", "officer"] "Cashier" = false := by
  refine ⟨?_, by decide, by decide⟩
  intro keywords text
  simp only [keyword_match, List.any_eq_true, lowerChars]
  constructor
  · rintro ⟨k, hk, h⟩
    exact ⟨k, hk, (hasSub_iff _ _).mp h⟩
  · rintro ⟨k, hk, h⟩
    exact ⟨k, hk, (hasSub_iff _ _).mpr h⟩

/-- C1: partition correctness and purity — for every loaded seen-set and
candidate list, the `new` list contains a candidate iff its identifier is
absent from the seen-set as loaded; `all` is the candidate list
unchanged; the seen-set state is unchanged by the partition query; and
every candidate with an already-present identifier appears in `all` but
never in `new`. -/
theorem partition_pure_spec (seen : Finset String) (cands : List Job) :
    (∀ j, j ∈ (partition seen cands).1.1 ↔ (j ∈ cands ∧ j.id ∉ seen)) ∧
    (partition seen cands).1.2 = cands ∧
    (partition seen cands).2 = seen ∧
    (∀ j, j ∈ cands → j.id ∈ seen →
      j ∈ (partition seen cands).1.2 ∧ j ∉ (partition seen cands).1.1) := by
  refine ⟨?_, rfl, rfl, ?_⟩
  · intro j
    simp [partition, new_jobs, List.mem_filter]
  · intro j hj hid
    refine ⟨hj, ?_⟩
    simp [partition, new_jobs, List.mem_filter, hid]

/-- Witness for C1 at a concrete input: a candidate whose identifier is
already seen lands in the full list and not in the new list. -/
theorem partition_pure_witness :
    c1job ∈ (partition {"seen-id-1"} [c1job]).1.2 ∧
    c1job ∉ (partition {"seen-id-1"} [c1job]).1.1 :=
  (partition_pure_spec {"seen-id-1"} [c1job]).2.2.2 c1job (by simp) (by decide)

theorem mem_foldl_insert :
    ∀ (l : List String) (s : Finset String) (a : String),
      (a ∈ l.foldl (fun t x => insert x t) s ↔ a ∈ s ∨ a ∈ l) := by
  intro l
  induction l with
  | nil => simp
  | cons x l ih =>
    intro s a
    simp only [List.foldl_cons, ih, Finset.mem_insert, List.mem_cons]
    tauto

/-- C3: persist/load round-trip — saving a seen-set and loading the
persisted array back reproduces exactly the same set, the persisted
representation is sorted, and the persisted form does not depend on the
order in which identifiers were inserted into the set. -/
theorem seen_roundtrip :
    (∀ s : Finset String,
      load_seen (SeenFile.strArray (save_seen s)) = s ∧
        List.Sorted (· ≤ ·) (save_seen s)) ∧
    (∀ l₁ l₂ : List String, List.Perm l₁ l₂ →
      save_seen (ofList l₁) = save_seen (ofList l₂)) := by
  constructor
  · intro s
    exact ⟨Finset.sort_toFinset _ _, Finset.sort_sorted _ _⟩
  · intro l₁ l₂ h
    have he : ofList l₁ = ofList l₂ := by
      ext a
      simp only [ofList, mem_foldl_insert]
      exact or_congr Iff.rfl h.mem_iff
    rw [he]

/-- Witness for C3 at a concrete input: two insertion orders of the same
identifiers persist identically. -/
theorem seen_roundtrip_witness :
    save_seen (ofList ["b", "a"]) = save_seen (ofList ["a", "b"]) :=
  seen_roundtrip.2 ["b", "a"] ["a", "b"] (List.Perm.swap "a" "b" [])

/-- Counterexample to C8 as stated: the file content `["b","a"]` is a
valid JSON array of strings that is **not** sorted, yet `load_seen`
returns the (non-empty) set of its elements rather than the empty
set. -/
theorem load_seen_unsorted_cex :
    ¬ isSortedStringArrayFile (SeenFile.strArray ["b", "a"]) ∧
    load_seen (SeenFile.strArray ["b", "a"]) ≠ (∅ : Finset String) := by
  constructor
  · intro h
    have hba : ("b" : String) ≤ "a" := (List.sorted_cons.mp h).1 "a" (by simp)
    have hab : ("a" : String) < "b" := String.lt_iff_toList_lt.mpr (by decide)
    exact absurd hba (not_le.mpr hab)
  · intro h
    have hb : ("b" : String) ∈ load_seen (SeenFile.strArray ["b", "a"]) := by
      simp [load_seen]
    rw [h] at hb
    exact absurd hb (Finset.not_mem_empty _)

/-- C8 amended: `load_seen` returns the empty set exactly for the absent
file and for content on which parsing (or set construction) raises; it
never raises itself (it is total); content that parses as a JSON array
of strings — sorted or not — loads as the set of the array's
elements. -/
theorem load_seen_recovery :
    load_seen SeenFile.absent = ∅ ∧
    load_seen SeenFile.unreadable = ∅ ∧
    ∀ l, load_seen (SeenFile.strArray l) = l.toFinset :=
  ⟨rfl, rfl, fun _ => rfl⟩

/-- Counterexample to C7 as stated: a `304 Not Modified` response is not
a 2xx status, yet `raise_for_status()` raises only for 4xx/5xx, so
`fetch_html` returns the body instead of failing. -/
theorem fetch_nonerror_304_cex :
    fetch_html (HttpOutcome.response 304 "cached page") =
      Except.ok "cached page" ∧
    ¬ is2xx 304 := by
  constructor
  · rfl
  · intro h
    exact absurd h.2 (by decide)

/-- C7 amended: `fetch_html` fails exactly when a network-level failure
occurs or the final HTTP status is a client or server error
(`400 ≤ status < 600`, the statuses `raise_for_status` raises for); it
performs its single attempt with no retry (the function consumes one
outcome), so a failed attempt is final for that source in that run. -/
theorem fetch_failure_iff (o : HttpOutcome) :
    (∃ e, fetch_html o = Except.error e) ↔
      (o = HttpOutcome.netError ∨
        ∃ s b, o = HttpOutcome.response s b ∧ 400 ≤ s ∧ s < 600) := by
  cases o with
  | netError => simp [fetch_html]
  | response s b =>
    by_cases h : 400 ≤ s ∧ s < 600
    · simp [fetch_html, h]
    · simp [fetch_html, h]

theorem mem_record_of_mem_seen :
    ∀ (l : List Job) (seen : Finset String) (a : String),
      a ∈ seen → a ∈ record seen l := by
  intro l
  induction l with
  | nil => intro seen a h; exact h
  | cons j t ih =>
    intro seen a h
    exact ih _ a (Finset.mem_insert_of_mem h)

theorem id_mem_record :
    ∀ (l : List Job) (seen : Finset String) (j : Job),
      j ∈ l → j.id ∈ record seen l := by
  intro l
  induction l with
  | nil => intro seen j h; cases h
  | cons a t ih =>
    intro seen j h
    rcases List.mem_cons.mp h with rfl | h
    · exact mem_record_of_mem_seen t _ _ (Finset.mem_insert_self _ _)
    · exact ih _ j h

theorem new_jobs_after_record (seen : Finset String) (c : List Job) :
    new_jobs (record seen c) c = [] := by
  rw [new_jobs, List.filter_eq_nil_iff]
  intro j hj
  simp [id_mem_record c seen j hj]

/-- C2: pipeline idempotence — a second run against the same per-source
inputs (identical markup parses to identical candidates, the parsers
being functions), starting from the seen-set persisted by the first run,
yields no new postings and a digest that carries the explicit
no-new-jobs line; this rests on `record` having covered every collected
candidate of the first run, not only the new ones. -/
theorem second_run_no_new (kw : List String) (t1 t2 : String)
    (seen0 : Finset String) (inp : RunInput) :
    (runPipeline kw t2
      (load_seen (SeenFile.strArray (runPipeline kw t1 seen0 inp).savedSeen))
      inp).new = [] ∧
    "No new matching jobs today." ∈
      (runPipeline kw t2
        (load_seen (SeenFile.strArray (runPipeline kw t1 seen0 inp).savedSeen))
        inp).digest := by
  have hload :
      load_seen (SeenFile.strArray (runPipeline kw t1 seen0 inp).savedSeen) =
        record seen0 (collect kw inp) := by
    show (save_seen (record seen0 (collect kw inp))).toFinset = _
    exact Finset.sort_toFinset _ _
  have hnew :
      (runPipeline kw t2
        (load_seen (SeenFile.strArray (runPipeline kw t1 seen0 inp).savedSeen))
        inp).new = [] := by
    show new_jobs
      (load_seen (SeenFile.strArray (runPipeline kw t1 seen0 inp).savedSeen))
      (collect kw inp) = []
    rw [hload]
    exact new_jobs_after_record seen0 (collect kw inp)
  refine ⟨hnew, ?_⟩
  show "No new matching jobs today." ∈
    digestLines t2
      (new_jobs
        (load_seen (SeenFile.strArray (runPipeline kw t1 seen0 inp).savedSeen))
        (collect kw inp))
  rw [show new_jobs
      (load_seen (SeenFile.strArray (runPipeline kw t1 seen0 inp).savedSeen))
      (collect kw inp) = [] from hnew]
  simp [digestLines]

theorem mem_foldl_blocks :
    ∀ (l : List Job) (acc : List String) (x : String),
      (x ∈ l.foldl (fun a j => a ++ jobBlock j) acc ↔
        x ∈ acc ∨ ∃ j, j ∈ l ∧ x ∈ jobBlock j) := by
  intro l
  induction l with
  | nil => simp
  | cons h t ih =>
    intro acc x
    simp only [List.foldl_cons, ih, List.mem_append, List.mem_cons]
    constructor
    · rintro ((hx | hx) | ⟨j, hj, hx⟩)
      · exact Or.inl hx
      · exact Or.inr ⟨h, Or.inl rfl, hx⟩
      · exact Or.inr ⟨j, Or.inr hj, hx⟩
    · rintro (hx | ⟨j, (rfl | hj), hx⟩)
      · exact Or.inl (Or.inl hx)
      · exact Or.inl (Or.inr hx)
      · exact Or.inr ⟨j, hj, hx⟩

theorem bullet_mem_digest (today : String) (njs : List Job) (j : Job)
    (h : j ∈ njs) : bulletLine j ∈ digestLines today njs := by
  cases njs with
  | nil => cases h
  | cons a t =>
    simp only [digestLines, List.isEmpty_cons, if_neg]
    refine List.mem_append_right _ ?_
    rw [mem_foldl_blocks]
    exact Or.inr ⟨j, h, by simp [jobBlock]⟩

/-- C9: per-source failure isolation — when one source's fetch fails
(`none` in the run input: `main` catches the per-source exception, logs
it and continues) while the other succeeds, the failed source
contributes no candidates, the run still completes (the pipeline is a
total function producing a digest and a persisted set), and every new
posting of the successful source gets its bullet line in the digest.
Both failure sides are stated. -/
theorem source_isolation (kw : List String) (today : String)
    (seen0 : Finset String) (anchors : List Anchor) (text : String) :
    (collect kw ⟨none, some anchors⟩ = parse_ntchito kw anchors ∧
     (runPipeline kw today seen0 ⟨none, some anchors⟩).new =
       new_jobs seen0 (parse_ntchito kw anchors) ∧
     ∀ j, j ∈ (runPipeline kw today seen0 ⟨none, some anchors⟩).new →
       bulletLine j ∈ (runPipeline kw today seen0 ⟨none, some anchors⟩).digest) ∧
    (collect kw ⟨some text, none⟩ = parse_onlinejobmw kw text ∧
     (runPipeline kw today seen0 ⟨some text, none⟩).new =
       new_jobs seen0 (parse_onlinejobmw kw text) ∧
     ∀ j, j ∈ (runPipeline kw today seen0 ⟨some text, none⟩).new →
       bulletLine j ∈ (runPipeline kw today seen0 ⟨some text, none⟩).digest) := by
  have hc1 : collect kw ⟨none, some anchors⟩ = parse_ntchito kw anchors := by
    simp [collect]
  have hc2 : collect kw ⟨some text, none⟩ = parse_onlinejobmw kw text := by
    simp [collect]
  refine ⟨⟨hc1, ?_, ?_⟩, ⟨hc2, ?_, ?_⟩⟩
  · show new_jobs seen0 (collect kw ⟨none, some anchors⟩) = _
    rw [hc1]
  · intro j hj
    exact bullet_mem_digest today _ j hj
  · show new_jobs seen0 (collect kw ⟨some text, none⟩) = _
    rw [hc2]
  · intro j hj
    exact bullet_mem_digest today _ j hj

/-- Witness for C9 at a concrete input: with the OnlineJobMW fetch failed
and one matching Ntchito anchor, the parsed posting's bullet line is in
the digest. -/
theorem source_isolation_witness :
    bulletLine w9job ∈
      (runPipeline ["Officer"] "2026-10-12" ∅ ⟨none, some w9anchors⟩).digest :=
  (source_isolation ["Officer"] "2026-10-12" ∅ w9anchors "").1.2.2 w9job
    (by decide)

/-- C4: the Site B positional lookback rule — at any in-range index whose
line lower-starts with `"posted "`, the candidate's title is the line
exactly 4 positions earlier, its identifier embeds the company from
exactly 3 positions earlier, its meta joins company, location (2
positions earlier) and the posted line; a field whose index would fall
before the start of the sequence is the empty string; and the candidate
is discarded exactly when the resulting title is empty, shorter than 6
characters, or fails the keyword filter. -/
theorem siteB_lookback_rule (kw : List String) (lines : List String) (i : Nat)
    (_hi : i < lines.length)
    (hp : strStartsWith (lower (lines.getD i "")) "posted " = true) :
    (siteB_at kw lines i = none ↔
      ((if 4 ≤ i then lines.getD (i - 4) "" else "") = "" ∨
       (if 4 ≤ i then lines.getD (i - 4) "" else "").length < 6 ∨
       keyword_match kw (if 4 ≤ i then lines.getD (i - 4) "" else "") = false)) ∧
    (∀ j, siteB_at kw lines i = some j →
      (j.title = (if 4 ≤ i then lines.getD (i - 4) "" else "") ∧
       j.id = "onlinejobmw::" ++ (if 4 ≤ i then lines.getD (i - 4) "" else "") ++
         "::" ++ (if 3 ≤ i then lines.getD (i - 3) "" else "") ++ "::" ++
         lines.getD i "" ∧
       j.meta = joinSep " | "
         (List.filter (fun p => !(p == ""))
           [if 3 ≤ i then lines.getD (i - 3) "" else "",
            if 2 ≤ i then lines.getD (i - 2) "" else "",
            lines.getD i ""]))) := by
  simp only [siteB_at, hp, if_true]
  set T := (if 4 ≤ i then lines.getD (i - 4) "" else "") with hT
  by_cases h1 : (T == "" || decide (T.length < 6)) = true
  · rw [if_pos h1]
    have hd : T = "" ∨ T.length < 6 := by simpa using h1
    refine ⟨⟨fun _ => hd.imp id Or.inl, fun _ => rfl⟩, ?_⟩
    intro j hj
    simp at hj
  · rw [if_neg h1]
    have hne : ¬(T = "" ∨ T.length < 6) := by simpa using h1
    by_cases h2 : (!(keyword_match kw T)) = true
    · rw [if_pos h2]
      have hkm : keyword_match kw T = false := by simpa using h2
      refine ⟨⟨fun _ => Or.inr (Or.inr hkm), fun _ => rfl⟩, ?_⟩
      intro j hj
      simp at hj
    · rw [if_neg h2]
      have hkm : keyword_match kw T = true := by simpa using h2
      constructor
      · constructor
        · intro h
          simp at h
        · rintro (he | hl | hk)
          · exact absurd (Or.inl he) hne
          · exact absurd (Or.inr hl) hne
          · rw [hkm] at hk
            cases hk
      · intro j hj
        injection hj with hj
        subst hj
        exact ⟨rfl, rfl, rfl⟩

/-- Witness for C4 at a concrete input: the complete block `c4lines` with
the posted marker at index 4. -/
theorem siteB_lookback_witness :
    (siteB_at KEYWORDS c4lines 4 = none ↔
      ("Project Accountant Role" = "" ∨
       ("Project Accountant Role" : String).length < 6 ∨
       keyword_match KEYWORDS "Project Accountant Role" = false)) ∧
    (∀ j, siteB_at KEYWORDS c4lines 4 = some j →
      (j.title = "Project Accountant Role" ∧
       j.id = "onlinejobmw::" ++ "Project Accountant Role" ++ "::" ++
         "Acme Ltd" ++ "::" ++ "Posted 1 day ago" ∧
       j.meta = joinSep " | "
         (List.filter (fun p => !(p == ""))
           ["Acme Ltd", "Lilongwe", "Posted 1 day ago"]))) :=
  siteB_lookback_rule KEYWORDS c4lines 4 (by decide) (by decide)

/-- Counterexample to C5 as stated: with the four scenario lines
consecutive (`c5lines`, one line before them) and keyword "Officer", the
parser yields **no** posting at all — at the posted marker (index 4) the
code reads the title from 4 positions back, which is the preamble line,
and that title fails the keyword filter.  In particular no posting titled
"Finance Officer" is produced. -/
theorem siteB_scenario_cex :
    parse_onlinejobmw_lines ["Officer"] c5lines = [] ∧
    ¬ (∃ j, j ∈ parse_onlinejobmw_lines ["Officer"] c5lines ∧
        j.title = "Finance Officer") := by
  have h : parse_onlinejobmw_lines ["Officer"] c5lines = [] := by decide
  exact ⟨h, by simp [h]⟩

/-- C5 amended: the block layout the offsets expect has one line between
"Lilongwe" and the posted marker (`c5blockLines`); on it the parser
yields exactly one posting, titled "Finance Officer" with meta
"Acme Corp | Lilongwe | Posted 2 days ago". -/
theorem siteB_scenario_amended :
    parse_onlinejobmw_lines ["Officer"] c5blockLines =
      [⟨"onlinejobmw::Finance Officer::Acme Corp::Posted 2 days ago",
        "Finance Officer",
        "https://onlinejobmw.com/job-category/job_vacancies/",
        "OnlineJobMW",
        "Acme Corp | Lilongwe | Posted 2 days ago"⟩] := by decide

theorem upsert_ids_nodup (acc : List Job) (j : Job)
    (h : (acc.map (fun x => x.id)).Nodup) :
    ((upsert acc j).map (fun x => x.id)).Nodup := by
  unfold upsert
  by_cases hex : acc.any (fun x => x.id == j.id) = true
  · rw [if_pos hex]
    have he : (acc.map (fun x => if x.id == j.id then j else x)).map
        (fun x => x.id) = acc.map (fun x => x.id) := by
      rw [List.map_map]
      apply List.map_congr_left
      intro x hx
      show (if x.id == j.id then j else x).id = x.id
      by_cases hxj : (x.id == j.id) = true
      · rw [if_pos hxj]
        exact (beq_iff_eq.mp hxj).symm
      · rw [if_neg hxj]
    rw [he]
    exact h
  · rw [if_neg hex]
    rw [List.map_append, List.nodup_append]
    refine ⟨h, by simp, ?_⟩
    intro a ha hb
    simp only [List.map_cons, List.map_nil, List.mem_singleton] at hb
    subst hb
    rcases List.mem_map.mp ha with ⟨x, hx, hxid⟩
    exact hex (List.any_eq_true.mpr ⟨x, hx, by simp [hxid]⟩)

theorem dedupById_ids_nodup (jobs : List Job) :
    ((dedupById jobs).map (fun x => x.id)).Nodup := by
  have key : ∀ (l acc : List Job), ((acc.map (fun x => x.id)).Nodup) →
      (((l.foldl upsert acc).map (fun x => x.id)).Nodup) := by
    intro l
    induction l with
    | nil =>
      intro acc h
      simpa using h
    | cons a t ih =>
      intro acc h
      exact ih (upsert acc a) (upsert_ids_nodup acc a h)
  exact key jobs [] (by simp)

/-- C10: the Site B parser performs no within-page deduplication — on
`c10lines`, whose two posted markers reconstruct identical title, company
and posted line, it returns two candidates with the same identifier
(and even the same bullet line); when that identifier is not in the
seen-set, both occurrences survive into the new list and each contributes
its own block to the digest.  The Site A parser, in contrast, always
returns pairwise-distinct identifiers. -/
theorem siteB_duplicates_survive (seen : Finset String) (today : String)
    (h : c10id ∉ seen) :
    parse_onlinejobmw_lines KEYWORDS c10lines = [c10job1, c10job2] ∧
    c10job1.id = c10job2.id ∧
    bulletLine c10job1 = bulletLine c10job2 ∧
    new_jobs seen (parse_onlinejobmw_lines KEYWORDS c10lines) =
      [c10job1, c10job2] ∧
    digestLines today
        (new_jobs seen (parse_onlinejobmw_lines KEYWORDS c10lines)) =
      ["# Malawi Job Digest — " ++ today, ""] ++
        (jobBlock c10job1 ++ jobBlock c10job2) ∧
    (∀ (kw : List String) (anchors : List Anchor),
      ((parse_ntchito kw anchors).map (fun x => x.id)).Nodup) := by
  have hp : parse_onlinejobmw_lines KEYWORDS c10lines = [c10job1, c10job2] := by
    decide
  have h1 : (!(decide (c10job1.id ∈ seen))) = true := by
    simp only [Bool.not_eq_true']
    exact decide_eq_false h
  have h2 : (!(decide (c10job2.id ∈ seen))) = true := by
    simp only [Bool.not_eq_true']
    exact decide_eq_false h
  have hn : new_jobs seen (parse_onlinejobmw_lines KEYWORDS c10lines) =
      [c10job1, c10job2] := by
    rw [hp, new_jobs]
    simp [List.filter_cons, h1, h2]
  have hd : digestLines today
      (new_jobs seen (parse_onlinejobmw_lines KEYWORDS c10lines)) =
      ["# Malawi Job Digest — " ++ today, ""] ++
        (jobBlock c10job1 ++ jobBlock c10job2) := by
    rw [hn]
    simp [digestLines]
  exact ⟨hp, rfl, rfl, hn, hd, fun kw anchors => dedupById_ids_nodup _⟩

/-- Witness for C10 at a concrete input: the empty seen-set. -/
theorem siteB_duplicates_survive_witness :
    parse_onlinejobmw_lines KEYWORDS c10lines = [c10job1, c10job2] ∧
    c10job1.id = c10job2.id ∧
    bulletLine c10job1 = bulletLine c10job2 ∧
    new_jobs ∅ (parse_onlinejobmw_lines KEYWORDS c10lines) =
      [c10job1, c10job2] ∧
    digestLines "2026-10-12"
        (new_jobs ∅ (parse_onlinejobmw_lines KEYWORDS c10lines)) =
      ["# Malawi Job Digest — 2026-10-12", ""] ++
        (jobBlock c10job1 ++ jobBlock c10job2) ∧
    (∀ (kw : List String) (anchors : List Anchor),
      ((parse_ntchito kw anchors).map (fun x => x.id)).Nodup) :=
  siteB_duplicates_survive ∅ "2026-10-12" (Finset.not_mem_empty c10id)

end FetchJobs
